import Mathlib

/-!
Shallow embedding of `nyc_dot_bot.py` (change-detection and at-most-once
publication pipeline) and verification of the specification's claims.

Modelling conventions:
* Python `dict` values (the announced-set cache, the per-run `successes`
  mapping) are association lists `List (String × String)` with Python's
  insertion-order semantics: `dictInsert` overwrites in place or appends,
  `dictUpdate` models `dict.update`.
* `urllib.parse.urljoin` is an external library function; the embedding is
  parametric in it (`urlj : String → String → String`).
* External network effects (PDF fetch, image conversion, Mastodon media/status
  posts) are modelled by a per-locator failure oracle `fails : String → Bool`
  and an explicit trace of channel actions; Sentry reports are collected in a
  `Report` list.
* The durable state (S3 bucket or local files) is a `Store` record holding the
  three persisted objects (`cache.json`, `feed-cache.json`, the rendered feed);
  a missing object is `none`.
-/

set_option autoImplicit false

namespace NycDotBot

/-- The listing page URL (module constant `current_projects_url`). -/
def current_projects_url : String :=
  "https://www1.nyc.gov/html/dot/html/about/current-projects.shtml"

/-- One anchor from the listing page: `link["href"]` and `link.text`. -/
structure Link where
  href : String
  text : String
deriving DecidableEq, Repr

/-- A Python `dict` from string keys to string values, in insertion order. -/
abbrev Dict := List (String × String)

/-- Python `k in d` (key membership). -/
def dictMem (d : Dict) (k : String) : Bool :=
  d.any (fun p => p.1 == k)

/-- Python `d[k] = v`: overwrite in place if the key exists, else append. -/
def dictInsert (d : Dict) (k v : String) : Dict :=
  if dictMem d k then d.map (fun p => if p.1 == k then (k, v) else p)
  else d ++ [(k, v)]

/-- Python `d.update(e)` for a dict `e` given in its iteration order. -/
def dictUpdate (d : Dict) (e : Dict) : Dict :=
  e.foldl (fun a p => dictInsert a p.1 p.2) d

/-- `TooManyNewPDFsException` (src line 33). -/
inductive TooManyNewPDFsException where
  | mk
deriving DecidableEq, Repr

section Detector

variable (urlj : String → String → String)

/-- The href normalization performed at the top of the loop in
`find_new_links`: `link["href"] = urljoin(current_projects_url, link["href"])`. -/
def normalizeLink (l : Link) : Link :=
  { l with href := urlj current_projects_url l.href }

/-- The `for link in current_links` loop body of `find_new_links`
(src lines 93–99): normalize the href, keep the link iff the normalized
href is not a key of `cached_links`. -/
def findLoop (cached : Dict) : List Link → List Link
  | [] => []
  | l :: rest =>
    let l' := normalizeLink urlj l
    if dictMem cached l'.href then findLoop cached rest
    else l' :: findLoop cached rest

/-- `find_new_links(cached_links, current_links)` (src lines 91–105):
collect the new links, then raise `TooManyNewPDFsException` when more
than 15 were collected. -/
def find_new_links (cached : Dict) (current : List Link) :
    Except TooManyNewPDFsException (List Link) :=
  let new_links := findLoop urlj cached current
  if new_links.length > 15 then .error .mk else .ok new_links

end Detector

/-- Python `s.replace(" (pdf)", "")` on the character list: remove every
(left-to-right, non-overlapping) occurrence of the 6-character pattern.
Fuel-based structural recursion (fuel bounds the scan length; the caller
passes the list's length, which always suffices since the scan advances
by at least one character per step). -/
def stripGo : Nat → List Char → List Char
  | 0, s => s
  | _ + 1, [] => []
  | fuel + 1, c :: rest =>
    if (c :: rest).take 6 = " (pdf)".toList then stripGo fuel (rest.drop 5)
    else c :: stripGo fuel rest

/-- `link_text.replace(" (pdf)", "")` at the `String` level. -/
def stripTag (s : String) : String :=
  String.mk (stripGo s.toList.length s.toList)

/-- `format_link_for_tweet(link)` (src lines 108–115). Note the source
writes `link_text[max_length-3]` — the single character at index 253 —
not a slice; the embedding reproduces that faithfully (the index is in
range because the branch requires `len(link_text) >= max_length`). -/
def format_link_for_tweet (link : Link) : String :=
  let max_length : Nat := 280 - 23 - 1
  let link_text := stripTag link.text
  let link_text :=
    if max_length ≤ link_text.length then
      String.mk ((link_text.toList.drop (max_length - 3)).take 1) ++ "..."
    else link_text
  link_text ++ " " ++ link.href

/-- An event forwarded to Sentry (`sentry_sdk.capture_exception`). -/
inductive Report where
  /-- A per-item exception caught in the `tweet_new_links` loop (src line 144). -/
  | publishError (href : String)
  /-- `NoSuchKey` while reading `feed-cache.json` from S3 (src line 165). -/
  | feedCacheMissing
deriving DecidableEq, Repr

/-- One outward channel interaction performed for a link in Live mode
(the PDF fetch / image conversion / media post / status post sequence of
src lines 134–140, collapsed into one action recorded on success). -/
inductive ChannelAction where
  | post (l : Link)
deriving DecidableEq, Repr

/-- The running state of the `tweet_new_links` loop: the `successes` dict
plus the traces of Sentry reports and channel actions. -/
structure TweetResult where
  successes : Dict
  reported : List Report
  actions : List ChannelAction
deriving DecidableEq, Repr

/-- The `for link in links` loop of `tweet_new_links` (src lines 126–145).
`fails` is the external-failure oracle, keyed by the link's href: in Live
mode an item whose network interaction fails is reported to Sentry and not
added to `successes`; in dry-run / no-tweet mode nothing external is called
and every item is added to `successes`. -/
def tweetGo (dry_run no_tweet : Bool) (fails : String → Bool) :
    List Link → TweetResult → TweetResult
  | [], acc => acc
  | l :: rest, acc =>
    if dry_run || no_tweet then
      tweetGo dry_run no_tweet fails rest
        { acc with successes := dictInsert acc.successes l.href l.text }
    else if fails l.href then
      tweetGo dry_run no_tweet fails rest
        { acc with reported := acc.reported ++ [Report.publishError l.href] }
    else
      tweetGo dry_run no_tweet fails rest
        { acc with
          successes := dictInsert acc.successes l.href l.text
          actions := acc.actions ++ [ChannelAction.post l] }

/-- `tweet_new_links(links, dry_run, no_tweet)` (src lines 118–146). -/
def tweet_new_links (links : List Link) (dry_run no_tweet : Bool)
    (fails : String → Bool) : TweetResult :=
  tweetGo dry_run no_tweet fails links ⟨[], [], []⟩

/-- One element of the `feed-cache.json` list (src lines 168–174). -/
structure FeedEntry where
  link : String
  text : String
  time : Nat
deriving DecidableEq, Repr

/-- One `<item>` of the rendered RSS document (src lines 185–192):
id = link = the stored locator, title = stored text with the " (pdf)"
suffix stripped, published = the stored timestamp. -/
structure RssEntry where
  id : String
  link : String
  title : String
  published : Nat
deriving DecidableEq, Repr

/-- Which State-Store backend the run uses (`--local-cache` given or not). -/
inductive Backend where
  | localFile
  | s3
deriving DecidableEq, Repr

/-- The durable objects: `cache.json` (AnnouncedSet), `feed-cache.json`
(feed history) and the rendered feed document (`feed.rss` / `feed.xml`).
`none` means the object does not exist yet. -/
structure Store where
  cache : Option Dict
  feedCache : Option (List FeedEntry)
  feedRss : Option (List RssEntry)
deriving DecidableEq, Repr

/-- The feed rendering of `update_feed` (src lines 182–192):
`rss_links = feed_json[-10:]`, reversed, one `RssEntry` per element with
the " (pdf)" suffix stripped from the title. -/
def renderFeed (feed_json : List FeedEntry) : List RssEntry :=
  let rss_links := (feed_json.drop (feed_json.length - 10)).reverse
  rss_links.map (fun e => RssEntry.mk e.link e.link (stripTag e.text) e.time)

/-- `update_feed(local_cache, client, dry_run, new_links)` (src lines
149–215). Reads the feed history (a missing history is an empty list —
silently for the local file, with a Sentry report for S3), appends one
entry per success at timestamp `now`, renders the last 10 entries newest
first, and — unless `dry_run` — writes the history and the rendered
document back. Returns the updated store and the Sentry reports. -/
def update_feed (backend : Backend) (store : Store) (dry_run : Bool)
    (new_links : Dict) (now : Nat) : Store × List Report :=
  let read : List FeedEntry × List Report :=
    match backend, store.feedCache with
    | .localFile, some fj => (fj, [])
    | .localFile, none => ([], [])
    | .s3, some fj => (fj, [])
    | .s3, none => ([], [Report.feedCacheMissing])
  let feed_json := read.1 ++ new_links.map (fun p => ⟨p.1, p.2, now⟩)
  let entries := renderFeed feed_json
  if dry_run then (store, read.2)
  else ({ store with feedCache := some feed_json, feedRss := some entries },
        read.2)

/-- How a run can abort. -/
inductive RunError where
  /-- Reading `cache.json` failed: `FileNotFoundError` from
  `get_local_cache` or `NoSuchKey` from `get_s3_cache`, neither caught in
  `run` (src lines 222–226). -/
  | cacheNotFound
  /-- `TooManyNewPDFsException` propagated out of `find_new_links`. -/
  | tooManyNewPDFs
deriving DecidableEq, Repr

/-- `run(event, context, local_cache, dry_run, no_tweet)` (src lines
218–249). `observed` is the output of `get_pdf_links(get_html())` (an
external fetch, taken as input); `fails` and `now` model the external
world for the publisher and the clock. Returns the updated store and the
Sentry reports, or the error that aborted the run. -/
def run (urlj : String → String → String) (backend : Backend)
    (store : Store) (observed : List Link) (dry_run no_tweet : Bool)
    (fails : String → Bool) (now : Nat) :
    Except RunError (Store × List Report) :=
  match store.cache with
  | none => .error .cacheNotFound
  | some cache =>
    match find_new_links urlj cache observed with
    | .error _ => .error .tooManyNewPDFs
    | .ok new_links =>
      if new_links.isEmpty then .ok (store, [])
      else
        let tr := tweet_new_links new_links dry_run no_tweet fails
        let p := update_feed backend store dry_run tr.successes now
        if dry_run then .ok (p.1, tr.reported ++ p.2)
        else
          .ok ({ p.1 with cache := some (dictUpdate cache tr.successes) },
               tr.reported ++ p.2)

/-! ### Dictionary lemmas -/

theorem dictMem_iff {d : Dict} {k : String} :
    dictMem d k = true ↔ ∃ p, p ∈ d ∧ p.1 = k := by
  simp [dictMem]

theorem dictMem_cons {p : String × String} {d : Dict} {k : String} :
    dictMem (p :: d) k = true ↔ p.1 = k ∨ dictMem d k = true := by
  simp [dictMem]

theorem dictMem_dictInsert (d : Dict) (k v k' : String) :
    dictMem (dictInsert d k v) k' = true ↔ (dictMem d k' = true ∨ k = k') := by
  unfold dictInsert
  by_cases h : dictMem d k = true
  · simp only [h, if_true]
    constructor
    · intro hm
      rcases dictMem_iff.mp hm with ⟨p, hp, hpk⟩
      rcases List.mem_map.mp hp with ⟨q, hq, hfq⟩
      by_cases hqk : q.1 == k
      · right
        rw [if_pos hqk] at hfq
        rw [← hfq] at hpk
        exact hpk
      · left
        rw [if_neg hqk] at hfq
        exact dictMem_iff.mpr ⟨p, by rw [← hfq]; exact hq, hpk⟩
    · intro hm
      rcases hm with hm | hm
      · rcases dictMem_iff.mp hm with ⟨q, hq, hqk⟩
        by_cases hqk2 : q.1 == k
        · have : k = k' := by
            have := beq_iff_eq.mp hqk2
            rw [← this, hqk]
          exact dictMem_iff.mpr ⟨(k, v),
            List.mem_map.mpr ⟨q, hq, by rw [if_pos hqk2]⟩, this⟩
        · exact dictMem_iff.mpr ⟨q,
            List.mem_map.mpr ⟨q, hq, by rw [if_neg hqk2]⟩, hqk⟩
      · rcases dictMem_iff.mp h with ⟨q, hq, hqk⟩
        refine dictMem_iff.mpr ⟨(k, v),
          List.mem_map.mpr ⟨q, hq, ?_⟩, hm⟩
        rw [if_pos (beq_iff_eq.mpr hqk)]
  · rw [if_neg h]
    simp [dictMem, List.any_append]

theorem dictUpdate_nil (d : Dict) : dictUpdate d [] = d := rfl

theorem dictUpdate_cons (d : Dict) (p : String × String) (e : Dict) :
    dictUpdate d (p :: e) = dictUpdate (dictInsert d p.1 p.2) e := rfl

theorem dictMem_dictUpdate (d e : Dict) (k : String) :
    dictMem (dictUpdate d e) k = true ↔
      (dictMem d k = true ∨ dictMem e k = true) := by
  induction e generalizing d with
  | nil => simp [dictUpdate_nil, dictMem]
  | cons p e ih =>
    rw [dictUpdate_cons, ih, dictMem_dictInsert, dictMem_cons]
    tauto

theorem dictMem_dictUpdate_bool (d e : Dict) (k : String) :
    dictMem (dictUpdate d e) k = (dictMem d k || dictMem e k) := by
  by_cases hres : dictMem (dictUpdate d e) k = true
  · rw [hres]
    rcases (dictMem_dictUpdate d e k).mp hres with h | h <;> simp [h]
  · have hor : ¬(dictMem d k = true ∨ dictMem e k = true) :=
      fun h => hres ((dictMem_dictUpdate d e k).mpr h)
    push_neg at hor
    rcases hor with ⟨h1, h2⟩
    simp only [Bool.not_eq_true] at hres h1 h2
    rw [hres, h1, h2]
    rfl

/-! ### Detector lemmas -/

theorem findLoop_eq_filter (urlj : String → String → String) (cached : Dict)
    (ls : List Link) :
    findLoop urlj cached ls =
      (ls.map (normalizeLink urlj)).filter
        (fun l => !(dictMem cached l.href)) := by
  induction ls with
  | nil => rfl
  | cons l rest ih =>
    simp only [findLoop, List.map_cons, List.filter_cons]
    by_cases h : dictMem cached (normalizeLink urlj l).href = true
    · simp [h, ih]
    · simp only [Bool.not_eq_true] at h
      simp [h, ih]

theorem find_new_links_ok_iff (urlj : String → String → String)
    (cached : Dict) (current : List Link) (d : List Link) :
    find_new_links urlj cached current = .ok d ↔
      (d = findLoop urlj cached current ∧
       (findLoop urlj cached current).length ≤ 15) := by
  unfold find_new_links
  by_cases h : (findLoop urlj cached current).length > 15
  · simp only [if_pos h]
    constructor
    · intro he
      exact absurd he (by simp)
    · intro ⟨_, hle⟩
      omega
  · simp only [if_neg h]
    constructor
    · intro he
      have : findLoop urlj cached current = d := by
        simpa using he
      exact ⟨this.symm, by omega⟩
    · intro ⟨hd, _⟩
      rw [hd]

theorem find_new_links_error_iff (urlj : String → String → String)
    (cached : Dict) (current : List Link) :
    find_new_links urlj cached current = .error .mk ↔
      (findLoop urlj cached current).length > 15 := by
  unfold find_new_links
  by_cases h : (findLoop urlj cached current).length > 15
  · simp [h]
  · simp [h]

/-! ### Publisher lemmas -/

theorem tweetGo_spec (dry_run no_tweet : Bool) (fails : String → Bool)
    (ls : List Link) (acc : TweetResult) :
    tweetGo dry_run no_tweet fails ls acc =
      { successes := dictUpdate acc.successes
          ((ls.filter (fun l => dry_run || no_tweet || !fails l.href)).map
            (fun l => (l.href, l.text)))
        reported := acc.reported ++
          ((ls.filter (fun l => !dry_run && !no_tweet && fails l.href)).map
            (fun l => Report.publishError l.href))
        actions := acc.actions ++
          ((ls.filter (fun l => !dry_run && !no_tweet && !fails l.href)).map
            (fun l => ChannelAction.post l)) } := by
  induction ls generalizing acc with
  | nil => simp [tweetGo, dictUpdate_nil]
  | cons l rest ih =>
    by_cases h1 : (dry_run || no_tweet) = true
    · simp only [tweetGo, h1, if_true, ih, List.filter_cons]
      have hc1 : (dry_run || no_tweet || !fails l.href) = true := by
        simp [Bool.or_eq_true] at h1 ⊢
        tauto
      have hc2 : (!dry_run && !no_tweet && fails l.href) = false := by
        simp [Bool.or_eq_true] at h1
        rcases h1 with h | h <;> simp [h]
      have hc3 : (!dry_run && !no_tweet && !fails l.href) = false := by
        simp [Bool.or_eq_true] at h1
        rcases h1 with h | h <;> simp [h]
      simp [hc1, hc2, hc3, dictUpdate_cons]
    · have hdry : dry_run = false := by
        simp [Bool.or_eq_true] at h1
        exact h1.1
      have hnt : no_tweet = false := by
        simp [Bool.or_eq_true] at h1
        exact h1.2
      subst hdry hnt
      by_cases h2 : fails l.href = true
      · simp only [tweetGo, Bool.or_self, Bool.false_or, h2, if_true,
          if_false, ih, List.filter_cons]
        simp [h2]
      · simp only [Bool.not_eq_true] at h2
        simp only [tweetGo, Bool.or_self, Bool.false_or, h2, ih,
          List.filter_cons]
        simp [h2, dictUpdate_cons]

theorem dictMem_linkPairs (ls : List Link) (k : String) :
    dictMem (ls.map (fun l => (l.href, l.text))) k = true ↔
      ∃ l, l ∈ ls ∧ l.href = k := by
  simp [dictMem, List.any_map, Function.comp]

theorem tweet_successes_mem (ls : List Link) (fails : String → Bool)
    (k : String) :
    dictMem (tweet_new_links ls false false fails).successes k = true ↔
      ∃ l, l ∈ ls ∧ l.href = k ∧ fails k = false := by
  rw [tweet_new_links, tweetGo_spec]
  simp only [dictMem_dictUpdate, dictMem_linkPairs]
  constructor
  · intro hm
    rcases hm with hm | ⟨l, hl, hk⟩
    · exact absurd hm (by simp [dictMem])
    · rcases List.mem_filter.mp hl with ⟨hmem, hcond⟩
      simp only [Bool.false_or, Bool.not_eq_true'] at hcond
      exact ⟨l, hmem, hk, by rw [← hk]; simpa using hcond⟩
  · intro ⟨l, hl, hk, hf⟩
    right
    refine ⟨l, List.mem_filter.mpr ⟨hl, ?_⟩, hk⟩
    simp [hk, hf]

theorem tweet_successes_mem_record (ls : List Link) (fails : String → Bool)
    (k : String) :
    dictMem (tweet_new_links ls false true fails).successes k = true ↔
      ∃ l, l ∈ ls ∧ l.href = k := by
  rw [tweet_new_links, tweetGo_spec]
  simp only [dictMem_dictUpdate, dictMem_linkPairs]
  constructor
  · intro hm
    rcases hm with hm | ⟨l, hl, hk⟩
    · exact absurd hm (by simp [dictMem])
    · exact ⟨l, (List.mem_filter.mp hl).1, hk⟩
  · intro ⟨l, hl, hk⟩
    right
    exact ⟨l, List.mem_filter.mpr ⟨hl, by simp⟩, hk⟩

/-! ### Orchestrator lemmas -/

theorem update_feed_dry (backend : Backend) (store : Store) (nl : Dict)
    (now : Nat) :
    (update_feed backend store true nl now).1 = store := rfl

theorem run_dry_store_eq (urlj : String → String → String)
    (backend : Backend) (store : Store) (observed : List Link)
    (no_tweet : Bool) (fails : String → Bool) (now : Nat) (store' : Store)
    (reports : List Report)
    (h : run urlj backend store observed true no_tweet fails now =
      .ok (store', reports)) :
    store' = store := by
  cases hc : store.cache with
  | none =>
    simp [run, hc] at h
  | some cache =>
    cases hf : find_new_links urlj cache observed with
    | error e =>
      simp [run, hc, hf] at h
    | ok nl =>
      simp only [run, hc, hf] at h
      by_cases he : nl.isEmpty
      · simp only [he, if_true] at h
        have := (Except.ok.injEq _ _).mp h
        exact (congrArg Prod.fst this).symm
      · simp only [he, Bool.false_eq_true, if_false, if_true] at h
        rw [update_feed_dry] at h
        have := (Except.ok.injEq _ _).mp h
        exact (congrArg Prod.fst this).symm

theorem run_unfold (urlj : String → String → String) (backend : Backend)
    (store : Store) (cache : Dict) (observed : List Link)
    (dry_run no_tweet : Bool) (fails : String → Bool) (now : Nat)
    (nl : List Link)
    (h1 : store.cache = some cache)
    (h2 : find_new_links urlj cache observed = .ok nl) :
    run urlj backend store observed dry_run no_tweet fails now =
      (if nl.isEmpty then .ok (store, [])
       else
         let tr := tweet_new_links nl dry_run no_tweet fails
         let p := update_feed backend store dry_run tr.successes now
         if dry_run then .ok (p.1, tr.reported ++ p.2)
         else
           .ok ({ p.1 with cache := some (dictUpdate cache tr.successes) },
                tr.reported ++ p.2)) := by
  simp only [run, h1, h2]

/-! ### Claims -/

/-- C1: whenever `find_new_links` returns a delta, that delta is exactly the
subsequence of the (href-normalized) observed items whose locator is not a
key of the announced set — i.e. the `filter` of the observed sequence, which
preserves relative order (it is a sublist) and performs no deduplication
within the observed sequence itself. -/
theorem detect_returns_filtered_subsequence
    (urlj : String → String → String) (cached : Dict) (observed : List Link)
    (delta : List Link)
    (h : find_new_links urlj cached observed = .ok delta) :
    delta = (observed.map (normalizeLink urlj)).filter
      (fun l => !(dictMem cached l.href)) ∧
    delta.Sublist (observed.map (normalizeLink urlj)) := by
  rcases (find_new_links_ok_iff urlj cached observed delta).mp h with ⟨hd, _⟩
  rw [hd, findLoop_eq_filter]
  exact ⟨rfl, List.filter_sublist _⟩

/-- Witness for C1: `announced = {"a" ↦ "A"}`,
`observed = [Item(a,"A"), Item(b,"B"), Item(b,"B")]` — the detector returns
the two occurrences of `b` (no deduplication), the filtered subsequence. -/
theorem detect_returns_filtered_subsequence_witness :
    [Link.mk "b" "B", Link.mk "b" "B"] =
      (([Link.mk "a" "A", Link.mk "b" "B", Link.mk "b" "B"].map
        (normalizeLink (fun _ s => s))).filter
          (fun l => !(dictMem [("a", "A")] l.href))) ∧
    List.Sublist [Link.mk "b" "B", Link.mk "b" "B"]
      ([Link.mk "a" "A", Link.mk "b" "B", Link.mk "b" "B"].map
        (normalizeLink (fun _ s => s))) :=
  detect_returns_filtered_subsequence (fun _ s => s) [("a", "A")]
    [Link.mk "a" "A", Link.mk "b" "B", Link.mk "b" "B"]
    [Link.mk "b" "B", Link.mk "b" "B"] (by rfl)

/-- C3: a delta of at most 15 items (in particular exactly 15) is returned
normally; a delta of 16 or more makes `find_new_links` raise
`TooManyNewPDFsException` and produce no result. -/
theorem detect_anomaly_guard_boundary
    (urlj : String → String → String) (cached : Dict) (observed : List Link) :
    ((findLoop urlj cached observed).length ≤ 15 →
      find_new_links urlj cached observed = .ok (findLoop urlj cached observed)) ∧
    (16 ≤ (findLoop urlj cached observed).length →
      find_new_links urlj cached observed = .error .mk ∧
      ∀ d, find_new_links urlj cached observed ≠ .ok d) := by
  constructor
  · intro hle
    exact (find_new_links_ok_iff urlj cached observed _).mpr ⟨rfl, hle⟩
  · intro hge
    have herr : find_new_links urlj cached observed = .error .mk :=
      (find_new_links_error_iff urlj cached observed).mpr (by omega)
    refine ⟨herr, fun d hok => ?_⟩
    rw [herr] at hok
    exact absurd hok (by simp)

/-- Witness for C3: with an empty announced set, 15 distinct observed items
pass the guard and 16 distinct observed items trip it. -/
theorem detect_anomaly_guard_boundary_witness :
    find_new_links (fun _ s => s) []
        ((List.range 15).map (fun i => Link.mk (toString i) "t")) =
      .ok (findLoop (fun _ s => s) []
        ((List.range 15).map (fun i => Link.mk (toString i) "t"))) ∧
    find_new_links (fun _ s => s) []
        ((List.range 16).map (fun i => Link.mk (toString i) "t")) =
      .error .mk :=
  ⟨(detect_anomaly_guard_boundary (fun _ s => s) []
      ((List.range 15).map (fun i => Link.mk (toString i) "t"))).1
      (by decide),
   ((detect_anomaly_guard_boundary (fun _ s => s) []
      ((List.range 16).map (fun i => Link.mk (toString i) "t"))).2
      (by decide)).1⟩

/-- C5: a `DryRun` invocation of the orchestrator never changes the durable
state: whenever `run` with `dry_run = true` completes, the resulting store
(announced-set bytes, feed history, rendered feed) equals the starting
store. -/
theorem dry_run_leaves_store_unchanged
    (urlj : String → String → String) (backend : Backend) (store : Store)
    (observed : List Link) (no_tweet : Bool) (fails : String → Bool)
    (now : Nat) (store' : Store) (reports : List Report)
    (h : run urlj backend store observed true no_tweet fails now =
      .ok (store', reports)) :
    store' = store :=
  run_dry_store_eq urlj backend store observed no_tweet fails now
    store' reports h

/-- Witness for C5: a concrete dry run with one genuinely new item completes
and leaves the concrete store unchanged. -/
theorem dry_run_leaves_store_unchanged_witness :
    (⟨some [("a", "A")], some [], none⟩ : Store) =
      (⟨some [("a", "A")], some [], none⟩ : Store) :=
  dry_run_leaves_store_unchanged (fun _ s => s) .localFile
    ⟨some [("a", "A")], some [], none⟩
    [Link.mk "a" "A", Link.mk "b" "B (pdf)"] false (fun _ => false) 0
    ⟨some [("a", "A")], some [], none⟩ [] (by rfl)

/-- C4: in Live mode the publisher isolates failures per item: a failing
item's locator is absent from the returned successes mapping, every
non-failing item (earlier or later than any failure) is present in it, the
failure is reported to telemetry (in batch order), and every non-failing
item's channel post is still performed; the loop never propagates a
per-item error (it is a total function returning the mapping). -/
theorem publisher_isolates_failures (links : List Link)
    (fails : String → Bool) :
    (∀ l, l ∈ links → fails l.href = true →
      dictMem (tweet_new_links links false false fails).successes l.href
        = false) ∧
    (∀ l, l ∈ links → fails l.href = false →
      dictMem (tweet_new_links links false false fails).successes l.href
        = true) ∧
    (tweet_new_links links false false fails).reported =
      (links.filter (fun l => fails l.href)).map
        (fun l => Report.publishError l.href) ∧
    (tweet_new_links links false false fails).actions =
      (links.filter (fun l => !fails l.href)).map
        (fun l => ChannelAction.post l) := by
  refine ⟨?_, ?_, ?_, ?_⟩
  · intro l hl hf
    by_contra hne
    rw [Bool.not_eq_false] at hne
    rcases (tweet_successes_mem links fails l.href).mp hne with
      ⟨l', _, _, hfk⟩
    rw [hf] at hfk
    simp at hfk
  · intro l hl hf
    exact (tweet_successes_mem links fails l.href).mpr ⟨l, hl, rfl, hf⟩
  · rw [tweet_new_links, tweetGo_spec]
    simp
  · rw [tweet_new_links, tweetGo_spec]
    simp

/-- Witness for C4: in the batch `[u1, u2]` where posting `u1` fails,
`u1` is absent from the successes mapping and the later item `u2` is
still attempted and recorded. -/
theorem publisher_isolates_failures_witness :
    dictMem (tweet_new_links [Link.mk "u1" "t1", Link.mk "u2" "t2"]
      false false (fun k => k == "u1")).successes "u1" = false ∧
    dictMem (tweet_new_links [Link.mk "u1" "t1", Link.mk "u2" "t2"]
      false false (fun k => k == "u1")).successes "u2" = true :=
  ⟨(publisher_isolates_failures [Link.mk "u1" "t1", Link.mk "u2" "t2"]
      (fun k => k == "u1")).1 (Link.mk "u1" "t1") (by decide) (by decide),
   (publisher_isolates_failures [Link.mk "u1" "t1", Link.mk "u2" "t2"]
      (fun k => k == "u1")).2.1 (Link.mk "u2" "t2") (by decide) (by decide)⟩

/-- C2: after a Live run persists its outcomes, the announced set is the
old one extended by exactly the Succeeded subset of the run's delta;
re-running the detector on the same observed sequence yields exactly the
previously-failed items, and no succeeded locator is offered as new again
(succeeded locators are absent from the new delta, and persisting is
monotone: every previously announced locator stays announced). -/
theorem run_persists_successes_and_converges
    (urlj : String → String → String) (backend : Backend) (store : Store)
    (cache : Dict) (observed : List Link) (fails : String → Bool)
    (now : Nat) (delta : List Link)
    (h1 : store.cache = some cache)
    (h2 : find_new_links urlj cache observed = .ok delta) :
    (tweet_new_links delta false false fails).successes =
      dictUpdate [] ((delta.filter (fun l => !fails l.href)).map
        (fun l => (l.href, l.text))) ∧
    (∃ store' reports,
      run urlj backend store observed false false fails now =
        .ok (store', reports) ∧
      store'.cache = some (dictUpdate cache
        (tweet_new_links delta false false fails).successes)) ∧
    find_new_links urlj
        (dictUpdate cache (tweet_new_links delta false false fails).successes)
        observed =
      .ok (delta.filter (fun l => fails l.href)) ∧
    (∀ l, l ∈ delta → fails l.href = false →
      ∀ x, x ∈ delta.filter (fun l => fails l.href) → x.href ≠ l.href) ∧
    (∀ k, dictMem cache k = true →
      dictMem (dictUpdate cache
        (tweet_new_links delta false false fails).successes) k = true) := by
  rcases (find_new_links_ok_iff urlj cache observed delta).mp h2 with
    ⟨hdelta, hlen⟩
  refine ⟨?_, ?_, ?_, ?_, ?_⟩
  · rw [tweet_new_links, tweetGo_spec]
    simp
  · rw [run_unfold urlj backend store cache observed false false fails now
      delta h1 h2]
    by_cases he : delta.isEmpty
    · rw [List.isEmpty_iff] at he
      subst he
      refine ⟨store, [], by simp, ?_⟩
      rw [h1]
      rfl
    · rw [if_neg (by simpa using he)]
      exact ⟨_, _, rfl, rfl⟩
  · have hnewLoop : findLoop urlj
        (dictUpdate cache (tweet_new_links delta false false fails).successes)
        observed = delta.filter (fun l => fails l.href) := by
      rw [findLoop_eq_filter]
      have hstep1 : (observed.map (normalizeLink urlj)).filter
          (fun l => !(dictMem (dictUpdate cache
            (tweet_new_links delta false false fails).successes) l.href)) =
          (observed.map (normalizeLink urlj)).filter
            (fun l => !(dictMem (tweet_new_links delta false false
              fails).successes l.href) && !(dictMem cache l.href)) := by
        apply List.filter_congr
        intro x _
        rw [dictMem_dictUpdate_bool]
        cases hcm : dictMem cache x.href <;>
          cases hsm : dictMem
            (tweet_new_links delta false false fails).successes x.href <;>
          rfl
      rw [hstep1, ← List.filter_filter, ← findLoop_eq_filter, ← hdelta]
      apply List.filter_congr
      intro x hx
      cases hf : fails x.href
      · have : dictMem (tweet_new_links delta false false
            fails).successes x.href = true :=
          (tweet_successes_mem delta fails x.href).mpr ⟨x, hx, rfl, hf⟩
        rw [this]
        rfl
      · have : dictMem (tweet_new_links delta false false
            fails).successes x.href = false := by
          by_contra hne
          rw [Bool.not_eq_false] at hne
          rcases (tweet_successes_mem delta fails x.href).mp hne with
            ⟨l', _, _, hfk⟩
          rw [hf] at hfk
          simp at hfk
        rw [this]
        rfl
    refine (find_new_links_ok_iff urlj _ observed _).mpr ⟨hnewLoop.symm, ?_⟩
    rw [hnewLoop]
    calc (delta.filter (fun l => fails l.href)).length
        ≤ delta.length := List.length_filter_le _ _
      _ ≤ 15 := by rw [hdelta]; exact hlen
  · intro l _ hlf x hx hxl
    have hxf : fails x.href = true := (List.mem_filter.mp hx).2
    rw [hxl, hlf] at hxf
    simp at hxf
  · intro k hk
    exact (dictMem_dictUpdate _ _ k).mpr (Or.inl hk)

/-- Witness for C2: `announced = {"a" ↦ "A"}`, observed `[a, b, c]` where
posting `c` fails — the delta is `[b, c]`, the persisted set gains exactly
`b`, and re-running the detector yields exactly `[c]`. -/
theorem run_persists_successes_and_converges_witness :
    (tweet_new_links [Link.mk "b" "B", Link.mk "c" "C"] false false
        (fun k => k == "c")).successes =
      dictUpdate [] ((([Link.mk "b" "B", Link.mk "c" "C"]).filter
        (fun l => !(fun k => k == "c") l.href)).map
          (fun l => (l.href, l.text))) ∧
    (∃ store' reports,
      run (fun _ s => s) Backend.localFile
          ⟨some [("a", "A")], some [], none⟩
          [Link.mk "a" "A", Link.mk "b" "B", Link.mk "c" "C"] false false
          (fun k => k == "c") 0 =
        .ok (store', reports) ∧
      store'.cache = some (dictUpdate [("a", "A")]
        (tweet_new_links [Link.mk "b" "B", Link.mk "c" "C"] false false
          (fun k => k == "c")).successes)) ∧
    find_new_links (fun _ s => s)
        (dictUpdate [("a", "A")]
          (tweet_new_links [Link.mk "b" "B", Link.mk "c" "C"] false false
            (fun k => k == "c")).successes)
        [Link.mk "a" "A", Link.mk "b" "B", Link.mk "c" "C"] =
      .ok (([Link.mk "b" "B", Link.mk "c" "C"]).filter
        (fun l => (fun k => k == "c") l.href)) ∧
    (∀ l, l ∈ [Link.mk "b" "B", Link.mk "c" "C"] →
      (fun k => k == "c") l.href = false →
      ∀ x, x ∈ ([Link.mk "b" "B", Link.mk "c" "C"]).filter
        (fun l => (fun k => k == "c") l.href) → x.href ≠ l.href) ∧
    (∀ k, dictMem [("a", "A")] k = true →
      dictMem (dictUpdate [("a", "A")]
        (tweet_new_links [Link.mk "b" "B", Link.mk "c" "C"] false false
          (fun k => k == "c")).successes) k = true) :=
  run_persists_successes_and_converges (fun _ s => s) Backend.localFile
    ⟨some [("a", "A")], some [], none⟩ [("a", "A")]
    [Link.mk "a" "A", Link.mk "b" "B", Link.mk "c" "C"]
    (fun k => k == "c") 0 [Link.mk "b" "B", Link.mk "c" "C"]
    (by rfl) (by rfl)

/-- C9: in RecordOnly mode (`no_tweet = true`, `dry_run = false`) the
publisher performs no channel action (no media fetch, no post) and reports
no error, yet every item of the delta is recorded as succeeded; the run
still persists the announced set extended with every locator of the delta.
By contrast a DryRun invocation leaves the store unchanged. -/
theorem record_only_skips_channel_but_persists
    (urlj : String → String → String) (backend : Backend) (store : Store)
    (cache : Dict) (observed : List Link) (fails : String → Bool)
    (now : Nat) (delta : List Link)
    (h1 : store.cache = some cache)
    (h2 : find_new_links urlj cache observed = .ok delta) :
    (tweet_new_links delta false true fails).actions = [] ∧
    (tweet_new_links delta false true fails).reported = [] ∧
    (∀ l, l ∈ delta →
      dictMem (tweet_new_links delta false true fails).successes l.href
        = true) ∧
    (∃ store' reports,
      run urlj backend store observed false true fails now =
        .ok (store', reports) ∧
      store'.cache = some (dictUpdate cache
        (tweet_new_links delta false true fails).successes) ∧
      ∀ l, l ∈ delta →
        dictMem (dictUpdate cache
          (tweet_new_links delta false true fails).successes) l.href
          = true) ∧
    (∀ store' reports,
      run urlj backend store observed true true fails now =
        .ok (store', reports) → store' = store) := by
  refine ⟨?_, ?_, ?_, ?_, ?_⟩
  · rw [tweet_new_links, tweetGo_spec]
    simp
  · rw [tweet_new_links, tweetGo_spec]
    simp
  · intro l hl
    exact (tweet_successes_mem_record delta fails l.href).mpr ⟨l, hl, rfl⟩
  · rw [run_unfold urlj backend store cache observed false true fails now
      delta h1 h2]
    by_cases he : delta.isEmpty
    · rw [List.isEmpty_iff] at he
      subst he
      refine ⟨store, [], by simp, ?_, by simp⟩
      rw [h1]
      rfl
    · rw [if_neg (by simpa using he)]
      refine ⟨_, _, rfl, rfl, ?_⟩
      intro l hl
      exact (dictMem_dictUpdate _ _ _).mpr
        (Or.inr ((tweet_successes_mem_record delta fails l.href).mpr
          ⟨l, hl, rfl⟩))
  · intro store' reports h
    exact run_dry_store_eq urlj backend store observed true fails now
      store' reports h

/-- Witness for C9: a concrete RecordOnly run with one new item posts
nothing and persists its locator. -/
theorem record_only_skips_channel_but_persists_witness :
    (tweet_new_links [Link.mk "b" "B (pdf)"] false true
      (fun _ => false)).actions = [] ∧
    (tweet_new_links [Link.mk "b" "B (pdf)"] false true
      (fun _ => false)).reported = [] ∧
    (∀ l, l ∈ [Link.mk "b" "B (pdf)"] →
      dictMem (tweet_new_links [Link.mk "b" "B (pdf)"] false true
        (fun _ => false)).successes l.href = true) ∧
    (∃ store' reports,
      run (fun _ s => s) Backend.localFile
          ⟨some [("a", "A")], some [], none⟩
          [Link.mk "a" "A", Link.mk "b" "B (pdf)"] false true
          (fun _ => false) 0 =
        .ok (store', reports) ∧
      store'.cache = some (dictUpdate [("a", "A")]
        (tweet_new_links [Link.mk "b" "B (pdf)"] false true
          (fun _ => false)).successes) ∧
      ∀ l, l ∈ [Link.mk "b" "B (pdf)"] →
        dictMem (dictUpdate [("a", "A")]
          (tweet_new_links [Link.mk "b" "B (pdf)"] false true
            (fun _ => false)).successes) l.href = true) ∧
    (∀ store' reports,
      run (fun _ s => s) Backend.localFile
          ⟨some [("a", "A")], some [], none⟩
          [Link.mk "a" "A", Link.mk "b" "B (pdf)"] true true
          (fun _ => false) 0 =
        .ok (store', reports) →
      store' = ⟨some [("a", "A")], some [], none⟩) :=
  record_only_skips_channel_but_persists (fun _ s => s) Backend.localFile
    ⟨some [("a", "A")], some [], none⟩ [("a", "A")]
    [Link.mk "a" "A", Link.mk "b" "B (pdf)"] (fun _ => false) 0
    [Link.mk "b" "B (pdf)"] (by rfl) (by rfl)

theorem update_feed_write (backend : Backend) (store : Store)
    (fj : List FeedEntry) (succ : Dict) (now : Nat)
    (hfc : store.feedCache = some fj) :
    update_feed backend store false succ now =
      ({ store with
          feedCache :=
            some (fj ++ succ.map (fun p => FeedEntry.mk p.1 p.2 now))
          feedRss :=
            some (renderFeed
              (fj ++ succ.map (fun p => FeedEntry.mk p.1 p.2 now))) },
       []) := by
  cases backend <;> simp [update_feed, hfc]

theorem foldl_update_feed_cache (now : Nat) (ps : Dict) :
    ∀ (s : Store) (fj : List FeedEntry), s.feedCache = some fj →
      (ps.foldl (fun s p => (update_feed .localFile s false [p] now).1)
        s).feedCache =
      some (fj ++ ps.map (fun p => FeedEntry.mk p.1 p.2 now)) := by
  induction ps with
  | nil =>
    intro s fj h
    simpa using h
  | cons p ps ih =>
    intro s fj h
    rw [List.foldl_cons]
    have hstep : (update_feed .localFile s false [p] now).1.feedCache =
        some (fj ++ [FeedEntry.mk p.1 p.2 now]) := by
      rw [update_feed_write .localFile s fj [p] now h]
      rfl
    rw [ih _ _ hstep]
    simp

/-- C8: `render` emits the most recent 10 entries of the stored history,
newest first. After appending 25 entries one at a time through
`update_feed`, the rendered feed holds exactly the last 10 appended
entries in reverse append order, while the stored history retains all
25 entries. -/
theorem feed_render_caps_at_ten (ps : Dict) (now : Nat)
    (hlen : ps.length = 25) :
    (ps.foldl (fun s p => (update_feed .localFile s false [p] now).1)
        (⟨none, some [], none⟩ : Store)).feedCache =
      some (ps.map (fun p => FeedEntry.mk p.1 p.2 now)) ∧
    (ps.foldl (fun s p => (update_feed .localFile s false [p] now).1)
        (⟨none, some [], none⟩ : Store)).feedRss =
      some (((ps.map (fun p => FeedEntry.mk p.1 p.2 now)).drop 15).reverse.map
        (fun e => RssEntry.mk e.link e.link (stripTag e.text) e.time)) ∧
    ((ps.map (fun p => FeedEntry.mk p.1 p.2 now)).drop 15).length = 10 := by
  have hcache := foldl_update_feed_cache now ps
    (⟨none, some [], none⟩ : Store) [] rfl
  refine ⟨by simpa using hcache, ?_, ?_⟩
  · rcases List.eq_nil_or_concat ps with hnil | ⟨L, b, hps⟩
    · rw [hnil] at hlen
      simp at hlen
    · rw [List.concat_eq_append] at hps
      subst hps
      rw [List.foldl_append, List.foldl_cons, List.foldl_nil]
      have hmid := foldl_update_feed_cache now L
        (⟨none, some [], none⟩ : Store) [] rfl
      rw [List.nil_append] at hmid
      rw [update_feed_write .localFile _ _ [b] now hmid]
      have hfull : (L.map (fun p => FeedEntry.mk p.1 p.2 now)) ++
          ([b].map (fun p => FeedEntry.mk p.1 p.2 now)) =
          (L ++ [b]).map (fun p => FeedEntry.mk p.1 p.2 now) := by
        simp
      have hfl : ((L ++ [b]).map
          (fun p => FeedEntry.mk p.1 p.2 now)).length = 25 := by
        rw [List.length_map]
        exact hlen
      simp only [List.map_cons, List.map_nil] at hfull ⊢
      rw [hfull]
      rw [renderFeed, hfl]
  · rw [List.length_drop, List.length_map, hlen]

/-- Witness for C8: 25 identical entries appended one at a time. -/
theorem feed_render_caps_at_ten_witness :
    ((List.replicate 25 (("l", "t") : String × String)).foldl
        (fun s p => (update_feed .localFile s false [p] 0).1)
        (⟨none, some [], none⟩ : Store)).feedCache =
      some ((List.replicate 25 (("l", "t") : String × String)).map
        (fun p => FeedEntry.mk p.1 p.2 0)) ∧
    ((List.replicate 25 (("l", "t") : String × String)).foldl
        (fun s p => (update_feed .localFile s false [p] 0).1)
        (⟨none, some [], none⟩ : Store)).feedRss =
      some ((((List.replicate 25 (("l", "t") : String × String)).map
        (fun p => FeedEntry.mk p.1 p.2 0)).drop 15).reverse.map
          (fun e => RssEntry.mk e.link e.link (stripTag e.text) e.time)) ∧
    (((List.replicate 25 (("l", "t") : String × String)).map
        (fun p => FeedEntry.mk p.1 p.2 0)).drop 15).length = 10 :=
  feed_render_caps_at_ten (List.replicate 25 (("l", "t") : String × String))
    0 (by simp)

/-- Counterexample for C6: on a first run, with no `cache.json` object, the
run aborts with the uncaught read failure under both backends — it does not
treat NotFound as an empty announced set — and the feed-history NotFound
under the remote backend *is* reported to telemetry. -/
theorem missing_cache_fatal_counterexample :
    run (fun _ s => s) .localFile (⟨none, some [], none⟩ : Store)
        [Link.mk "a" "A"] false false (fun _ => false) 0 =
      .error .cacheNotFound ∧
    run (fun _ s => s) .s3 (⟨none, none, none⟩ : Store)
        [Link.mk "a" "A"] false false (fun _ => false) 0 =
      .error .cacheNotFound ∧
    (update_feed .s3 (⟨some [], none, none⟩ : Store) false [("b", "B")] 0).2 =
      [Report.feedCacheMissing] :=
  ⟨rfl, rfl, rfl⟩

/-- C6 (amended): a missing AnnouncedSet object is fatal to the run under
both backends (the read failure propagates out of `run`); only the
feed-history read treats NotFound as an empty history and proceeds —
silently under the local-file backend, but reported to telemetry under
the remote object-store backend. -/
theorem missing_state_read_behavior :
    (∀ (urlj : String → String → String) (backend : Backend) (store : Store)
        (observed : List Link) (dry_run no_tweet : Bool)
        (fails : String → Bool) (now : Nat),
      store.cache = none →
      run urlj backend store observed dry_run no_tweet fails now =
        .error .cacheNotFound) ∧
    (∀ (store : Store) (dry_run : Bool) (succ : Dict) (now : Nat),
      store.feedCache = none →
      (update_feed .localFile store dry_run succ now).2 = [] ∧
      (update_feed .s3 store dry_run succ now).2 =
        [Report.feedCacheMissing]) ∧
    (∀ (backend : Backend) (store : Store) (succ : Dict) (now : Nat),
      store.feedCache = none →
      (update_feed backend store false succ now).1.feedCache =
        some (succ.map (fun p => FeedEntry.mk p.1 p.2 now))) := by
  refine ⟨?_, ?_, ?_⟩
  · intro urlj backend store observed dry_run no_tweet fails now h
    simp [run, h]
  · intro store dry_run succ now h
    cases dry_run <;> simp [update_feed, h]
  · intro backend store succ now h
    cases backend <;> simp [update_feed, h]

/-- Witness for C6 (amended): concrete stores without the respective
backing objects. -/
theorem missing_state_read_behavior_witness :
    run (fun _ s => s) .localFile (⟨none, none, none⟩ : Store)
        [Link.mk "a" "A"] false false (fun _ => false) 0 =
      .error .cacheNotFound ∧
    (update_feed .s3 (⟨some [], none, none⟩ : Store) false [("b", "B")]
      0).1.feedCache = some [FeedEntry.mk "b" "B" 0] :=
  ⟨missing_state_read_behavior.1 (fun _ s => s) .localFile
      (⟨none, none, none⟩ : Store) [Link.mk "a" "A"] false false
      (fun _ => false) 0 rfl,
   missing_state_read_behavior.2.2 .s3 (⟨some [], none, none⟩ : Store)
      [("b", "B")] 0 rfl⟩

set_option maxRecDepth 4000 in
/-- C7 (code bug): the source intends to truncate an over-long label to the
channel budget (`max_length = 280 − 23 − 1`), but line 113 writes
`link_text[max_length-3]` — the single character at index 253 — instead of
the slice `link_text[:max_length-3]`. At a 256-character stripped label the
formatter emits a 4-character label (one character plus "..."), discarding
the rest, instead of a 253-character prefix plus "...". Short labels are
emitted unchanged, with the " (pdf)" suffix stripped and the locator
appended after a space. -/
theorem format_link_truncation_slip :
    (stripTag (String.mk (List.replicate 256 'a'))).length = 256 ∧
    format_link_for_tweet
        (Link.mk "u" (String.mk (List.replicate 256 'a'))) =
      "a... u" ∧
    format_link_for_tweet (Link.mk "u" "Short title (pdf)") =
      "Short title u" := by
  refine ⟨by decide, by decide, by decide⟩

/-- Counterexample for C10: in the spec's scenario the run succeeds, but
the feed history's single gained entry stores the raw display text
`"B (pdf)"`; only the rendered feed entry's title is the stripped `"B"`. -/
theorem scenario_stored_feed_text_counterexample :
    run (fun _ s => s) .localFile (⟨some [("a", "A")], some [], none⟩ : Store)
        [Link.mk "a" "A", Link.mk "b" "B (pdf)"] false false
        (fun _ => false) 0 =
      .ok (⟨some [("a", "A"), ("b", "B (pdf)")],
            some [FeedEntry.mk "b" "B (pdf)" 0],
            some [RssEntry.mk "b" "b" "B" 0]⟩, []) ∧
    "B (pdf)" ≠ "B" :=
  ⟨rfl, by decide⟩

/-- C10 (amended): with `announced = {"a" ↦ "A"}` and
`observed = [Item(a,"A"), Item(b,"B (pdf)")]`, the delta is
`[Item(b,"B (pdf)")]`; after the item publishes successfully the persisted
announced set is `{a ↦ "A", b ↦ "B (pdf)"}` and the feed history gains
exactly one entry whose stored text is `"B (pdf)"`, rendered in the feed
document with title `"B"`. -/
theorem scenario_single_new_item :
    find_new_links (fun _ s => s) [("a", "A")]
        [Link.mk "a" "A", Link.mk "b" "B (pdf)"] =
      .ok [Link.mk "b" "B (pdf)"] ∧
    run (fun _ s => s) .localFile (⟨some [("a", "A")], some [], none⟩ : Store)
        [Link.mk "a" "A", Link.mk "b" "B (pdf)"] false false
        (fun _ => false) 0 =
      .ok (⟨some [("a", "A"), ("b", "B (pdf)")],
            some [FeedEntry.mk "b" "B (pdf)" 0],
            some [RssEntry.mk "b" "b" "B" 0]⟩, []) :=
  ⟨rfl, rfl⟩

end NycDotBot
